import Mathlib

/-!
Shallow embedding of the RFDesign PD-L1 binder tutorial's orchestration
logic (tutorials/halluc_PD-L1_binder/halluc_PD-L1_binder.ipynb).

The notebook's control-plane code is plain Python over strings, lists and
a pandas table.  We embed:
  * the run-1 command-generation loop (`np.arange` over `start_num`),
  * the hit-filtering line `df[(df.af2_lddt>60) & (df.contig_rmsd_af2<1.5) & (df.rog<16)]`,
  * the promotion loop (`shutil.copyfile` over `hits.iterrows()`),
  * the run-2 propagation loop (`trb = np.load(...)`, `mask = trb.sampled_mask`,
    `contigs` filter, the run-2 command f-string).

Python strings are modelled by Lean `String`; the handful of string
operations used by the notebook (`str.split`, `str.join`, `str.replace`,
`os.path.basename`, `str()` of an int) are re-implemented structurally
below so that all definitions reduce in the kernel.  Python floats in the
metrics table are modelled by exact rationals (all comparisons in the
notebook are order comparisons of decimal literals).  Fallible file
operations are modelled with `Except`, the error carrying the offending
file name, mirroring Python exceptions.
-/

namespace RFDesign

/-- Python `s.split(sep)` on a character separator, on the character list:
`splitChar ',' "a,b"` is `["a","b"]`, and the empty string yields `[""]`
exactly as in Python. -/
def splitChar (sep : Char) : List Char → List (List Char)
  | [] => [[]]
  | c :: cs =>
    match splitChar sep cs with
    | [] => [[c]]
    | g :: gs => if c = sep then [] :: g :: gs else (c :: g) :: gs

/-- Python `s.split(sep)` for a one-character separator. -/
def pysplit (sep : Char) (s : String) : List String :=
  (splitChar sep s.data).map String.mk

/-- Join of character lists with a separator character. -/
def joinChar (sep : Char) : List (List Char) → List Char
  | [] => []
  | [x] => x
  | x :: y :: xs => x ++ sep :: joinChar sep (y :: xs)

/-- Python `sep.join(xs)` for a one-character separator. -/
def pyjoin (sep : Char) (xs : List String) : String :=
  String.mk (joinChar sep (xs.map String.data))

/-- Fuel-indexed worker for `pyreplace`; replaces non-overlapping
occurrences left to right, as Python `str.replace` does. -/
def replaceAux (pat rep : List Char) : Nat → List Char → List Char
  | 0, s => s
  | _, [] => []
  | fuel + 1, c :: cs =>
    if pat ≠ [] ∧ pat.isPrefixOf (c :: cs) then
      rep ++ replaceAux pat rep fuel ((c :: cs).drop pat.length)
    else
      c :: replaceAux pat rep fuel cs

/-- Python `s.replace(pat, rep)` (all non-overlapping occurrences). -/
def pyreplace (s pat rep : String) : String :=
  String.mk (replaceAux pat.data rep.data s.data.length s.data)

/-- Python `os.path.basename`: the part after the last `/`. -/
def basename (s : String) : String :=
  String.mk ((splitChar '/' s.data).getLastD [])

/-- Fuel-indexed decimal rendering of a natural number. -/
def natToCharsAux : Nat → Nat → List Char
  | 0, _ => []
  | fuel + 1, n =>
    if n < 10 then [Nat.digitChar n]
    else natToCharsAux fuel (n / 10) ++ [Nat.digitChar (n % 10)]

/-- Decimal rendering of a natural number. -/
def natToStr (n : Nat) : String :=
  String.mk (natToCharsAux (n + 1) n)

/-- Python `str()` of an integer. -/
def intToStr (i : Int) : String :=
  if i < 0 then "-" ++ natToStr i.natAbs else natToStr i.toNat

/-- Model of `np.arange(start, stop, step)` over Python integers, which
agrees with Python `range`: the values `start + step * i` for
`i < max(0, ceil((stop-start)/step))`, for either sign of a nonzero
step — so `arange 0 (-3) (-5) = [0]` and `arange 0 (-12) (-5) =
[0, -5, -10]`, exactly as numpy's descending integer ranges behave.
A zero step raises in numpy; that case is guarded by the caller. -/
def arange (start stop step : Int) : List Int :=
  if 0 < step then
    (List.range ((stop - start + step - 1).toNat / step.toNat)).map
      (fun i : ℕ => start + step * (i : ℤ))
  else if step < 0 then
    (List.range ((start - stop + (-step) - 1).toNat / (-step).toNat)).map
      (fun i : ℕ => start + step * (i : ℤ))
  else []

/-- The run-1 command f-string of notebook cell 5, byte for byte. -/
def run1Cmd (refPdb outdir runName mask : String) (batch istart : Int) : String :=
  "source activate SE3; python ../../hallucination/hallucinate.py --pdb=" ++ refPdb ++
  " --out=" ++ outdir ++ runName ++ " --mask=" ++ mask ++
  " --steps=g600 --num=" ++ intToStr batch ++ " --start_num=" ++ intToStr istart ++
  " --w_rog=1 --rog_thresh=16 --w_rep 2 --rep_pdb input/pdl1.pdb --rep_sigma 4" ++
  " --save_pdb=True --track_step 10 &>> " ++ outdir ++ runName ++ "_" ++
  intToStr istart ++ ".log"

/-- The run-1 command-generation loop: one command per
`istart in np.arange(0, total, batch)`.  The mask and the other intent
fields are interpolated verbatim, with no validation of any kind. -/
def buildRun1Cmds (total batch : Int) (refPdb outdir runName mask : String) :
    List String :=
  (arange 0 total batch).map (run1Cmd refPdb outdir runName mask batch)

/-- The run-1 loop as a fallible computation.  The only exception the
loop can raise is numpy's `ZeroDivisionError` for a zero step; for every
other input it returns normally. -/
def buildRun1 (total batch : Int) (refPdb outdir runName mask : String) :
    Except String (List String) :=
  if batch = 0 then .error "ZeroDivisionError"
  else .ok (buildRun1Cmds total batch refPdb outdir runName mask)

/-- The `(start_num, num)` argument pair of each run-1 command: spec `k`
receives start index `k * batch` and count `batch` (the loop always
passes `--num={batch}`). -/
def run1Specs (total batch : Int) : List (Int × Int) :=
  (arange 0 total batch).map (fun istart => (istart, batch))

/-- Index `i` lies in the range `[start, start + count)` of one spec. -/
def specCovers (spec : Int × Int) (i : Int) : Bool :=
  spec.1 ≤ i && i < spec.1 + spec.2

/-- Index `i` is covered by some spec in the list. -/
def anyCovers (specs : List (Int × Int)) (i : Int) : Bool :=
  specs.any (fun s => specCovers s i)

/-- A comparison direction in a hit-selection predicate: the notebook
uses only `>` and `<` column comparisons. -/
inductive Cmp
  | gt
  | lt
deriving DecidableEq

/-- One threshold predicate `(column, comparison, threshold)`, e.g.
`df.af2_lddt > 60`. -/
structure Pred where
  col : String
  cmp : Cmp
  thr : ℚ
deriving DecidableEq

/-- One row of the aggregated metrics table: a mapping from column name
to value, `none` standing for pandas `NaN` (a scorer that did not emit
this column for this design). -/
def Row : Type := List (String × Option ℚ)

instance : DecidableEq Row := by
  unfold Row
  infer_instance

/-- Value of a column in a row; an absent column and a stored `NaN` both
read as `none`. -/
def colVal (r : Row) (c : String) : Option ℚ :=
  match r.lookup c with
  | some v => v
  | none => none

/-- One predicate on one row.  A pandas comparison against `NaN` is
`False`, so a missing value never satisfies a predicate. -/
def satPred (r : Row) (p : Pred) : Bool :=
  match colVal r p.col with
  | none => false
  | some v =>
    match p.cmp with
    | .gt => decide (p.thr < v)
    | .lt => decide (v < p.thr)

/-- The hit-selection line
`hits = df[(df.af2_lddt>60) & (df.contig_rmsd_af2<1.5) & (df.rog<16)]`:
the rows satisfying the conjunction of all predicates, in table order.
It is a total function; the notebook has no error path here, the
operator inspects `hits.shape` afterwards. -/
def hitSelect (tbl : List Row) (preds : List Pred) : List Row :=
  tbl.filter (fun r => preds.all (satPred r))

/-- Boolean form of "replacing predicate `p` by `p'` loosens it": same
column, same direction, and the threshold moved so that strictly more
values pass (lower for `>`, higher for `<`). -/
def looser (p q : Pred) : Bool :=
  p.col == q.col && p.cmp == q.cmp &&
    (match p.cmp with
     | .gt => decide (q.thr ≤ p.thr)
     | .lt => decide (p.thr ≤ q.thr))

/-- The rational 1.41 (contig RMSD of the first demo hit). -/
def q141 : ℚ := ⟨141, 100, by norm_num, by norm_num [Nat.Coprime]⟩

/-- The rational 1.45 (contig RMSD of the second demo hit). -/
def q145 : ℚ := ⟨29, 20, by norm_num, by norm_num [Nat.Coprime]⟩

/-- The rational 1.5 (the contig-RMSD threshold). -/
def q150 : ℚ := ⟨3, 2, by norm_num, by norm_num [Nat.Coprime]⟩

/-- The rational 13.8 (radius of gyration of the first demo hit). -/
def q138 : ℚ := ⟨69, 5, by norm_num, by norm_num [Nat.Coprime]⟩

/-- The rational 13.1 (radius of gyration of the second demo hit). -/
def q131 : ℚ := ⟨131, 10, by norm_num, by norm_num [Nat.Coprime]⟩

/-- First demo row of the aggregated table: lddt 69, rmsd 1.41, rog 13.8. -/
def demoRow1 : Row :=
  [("af2_lddt", some 69), ("contig_rmsd_af2", some q141), ("rog", some q138)]

/-- Second demo row of the aggregated table: lddt 66, rmsd 1.45, rog 13.1. -/
def demoRow2 : Row :=
  [("af2_lddt", some 66), ("contig_rmsd_af2", some q145), ("rog", some q131)]

/-- The notebook's hit predicates: lddt > 60, rmsd < 1.5, rog < 16. -/
def demoPreds : List Pred :=
  [⟨"af2_lddt", .gt, 60⟩, ⟨"contig_rmsd_af2", .lt, q150⟩, ⟨"rog", .lt, 16⟩]

/-- The four `shutil.copyfile` source/destination pairs of the promotion
loop (cell 21), in program order: design model, AF2 model, run metadata,
sequence.  The string concatenations, including the doubled slash from
`row.folder + '/' + name`, follow the source byte for byte. -/
def designCopies (folder outdir name : String) : List (String × String) :=
  [ (folder ++ "/" ++ name ++ ".pdb", outdir ++ name ++ ".pdb"),
    (folder ++ "af2/" ++ name ++ ".pdb", outdir ++ "af2/" ++ name ++ "_af2pred.pdb"),
    (folder ++ "../" ++ name ++ ".trb", outdir ++ name ++ ".trb"),
    (folder ++ "../" ++ name ++ ".fas", outdir ++ name ++ ".fas") ]

/-- Model of `shutil.copyfile` against a filesystem modelled as the list
of existing paths: a missing source raises `FileNotFoundError` naming
the file. -/
def copyFile (env : List String) (c : String × String) :
    Except String (String × String) :=
  if env.contains c.1 then .ok c else .error c.1

/-- Sequential execution of a list of copies; a raised exception aborts
the remaining copies, as an uncaught Python exception aborts the loop. -/
def copyAll (env : List String) : List (String × String) →
    Except String (List (String × String))
  | [] => .ok []
  | c :: cs =>
    match copyFile env c with
    | .error e => .error e
    | .ok x =>
      match copyAll env cs with
      | .error e => .error e
      | .ok xs => .ok (x :: xs)

/-- The promotion loop of cell 21: for each hit name in order, the four
artifact copies; the loop body has no try/except, so the first missing
file aborts the whole loop. -/
def promoteAll (env : List String) (folder outdir : String)
    (names : List String) : Except String (List (String × String)) :=
  copyAll env (names.flatMap (designCopies folder outdir))

/-- The run-metadata record (`.trb` file) of a parent design, as the
run-2 loop reads it: the realized (`sampled`) constraint layout, plus
the record's other keys (trajectory bookkeeping), which the loop never
touches. -/
structure RunMeta where
  sampled_mask : String
  extra : List (String × String)
deriving DecidableEq

/-- Cell 25: `mask = trb['sampled_mask']` — the child's constraint
layout is the parent's realized layout, verbatim. -/
def childMask (t : RunMeta) : String := t.sampled_mask

/-- Cell 25: the segments kept for `--use_template`, i.e.
`[x for x in trb['sampled_mask'].split(',') if x[0]=='A']`.  A Python
`x[0]` on a nonempty segment is the head character. -/
def contigSegsOf (m : String) : List String :=
  (pysplit ',' m).filter (fun x => x.data.head? == some 'A')

/-- Cell 25: `contigs = ','.join(...)` over the kept segments. -/
def childContigs (t : RunMeta) : String :=
  pyjoin ',' (contigSegsOf t.sampled_mask)

/-- Cell 25: `fn.replace('.pdb', '.fas')` — the parent's sequence
artifact handed to `--spike_fas`. -/
def childSpikeFas (fn : String) : String := pyreplace fn ".pdb" ".fas"

/-- The child Job Specification fields derived from one parent design:
constraint layout, template segments, seed-sequence source, and the
retention strength `--spike 0.999`. -/
structure ChildSpec where
  mask : String
  contigs : String
  spike_fas : String
  spike : String
deriving DecidableEq

/-- The propagation derivation of the run-2 loop for one parent design
file `fn` with metadata `t`. -/
def propagateSpec (fn : String) (t : RunMeta) : ChildSpec :=
  ⟨childMask t, childContigs t, childSpikeFas fn, "0.999"⟩

/-- Cell 25: `name = os.path.basename(fn.replace('.pdb',''))` and
`run_name = name + '_' + run`. -/
def run2Name (fn run : String) : String :=
  basename (pyreplace fn ".pdb" "") ++ "_" ++ run

/-- The run-2 command f-string of cell 25, byte for byte, assembled from
the derived child spec. -/
def run2Cmd (refPdb receptor forceAa outdir run : String) (batch istart : Int)
    (fn : String) (t : RunMeta) : String :=
  "source activate SE3; python ../../hallucination/hallucinate.py --pdb=" ++
  refPdb ++ " --out=" ++ outdir ++ run2Name fn run ++
  " --steps m300 --num=" ++ intToStr batch ++ " --start_num=" ++ intToStr istart ++
  " --mask " ++ (propagateSpec fn t).mask ++
  " --use_template " ++ (propagateSpec fn t).contigs ++
  " --spike_fas " ++ (propagateSpec fn t).spike_fas ++
  " --spike " ++ (propagateSpec fn t).spike ++
  " --force_aa " ++ forceAa ++ " --exclude_aa C" ++
  " --receptor " ++ receptor ++ " --rec_placement second" ++
  " --w_rog=1 --rog_thresh=16 --save_pdb=True --track_step 1 &>> " ++
  outdir ++ run2Name fn run ++ "_" ++ intToStr istart ++ ".log"

/-- A segment string is a fixed (motif) segment when it starts with a
chain letter; chain identifiers in this campaign are upper-case letters,
while free segments start with a digit. -/
def isFixedSeg (x : String) : Bool :=
  match x.data.head? with
  | some c => c.isUpper
  | none => false

/-- A free segment resolved to an exact length: a nonempty all-digit
segment such as `30`. -/
def isExactFree (x : String) : Bool :=
  decide (x.data ≠ []) && x.data.all (fun c => c.isDigit)

/-- A layout string is realized when every comma-separated segment is a
fixed segment or an exact free length (no `lo-hi` range left). -/
def realizedMask (m : String) : Bool :=
  (pysplit ',' m).all (fun x => isFixedSeg x || isExactFree x)

/-- The fixed segments of a layout, in order. -/
def fixedSegs (m : String) : List String :=
  (pysplit ',' m).filter isFixedSeg

/-- Generic success test for a fallible computation. -/
def isOkB {α : Type} (e : Except String α) : Bool :=
  match e with
  | .ok _ => true
  | .error _ => false

deriving instance DecidableEq for Except

/-- A demo row with a missing (NaN) contig-RMSD value, as left by a
scorer that did not run for this design. -/
def demoRowNull : Row :=
  [("af2_lddt", some 90), ("contig_rmsd_af2", none), ("rog", some 10)]

/-- The lddt predicate loosened from `> 60` to `> 50`. -/
def demoLoosePred : Pred := ⟨"af2_lddt", .gt, 50⟩

/-- A parent run-metadata record with no bookkeeping fields. -/
def demoMeta1 : RunMeta := ⟨"30,A63-82,21,A119-140,3", []⟩

/-- The same realized layout with different trajectory bookkeeping. -/
def demoMeta2 : RunMeta := ⟨"30,A63-82,21,A119-140,3", [("loss", "0.31")]⟩

/-- The generation folder of the run-1 hits, as cell 9 sets it. -/
def demoFolder : String := "output/run1/trf_relax/"

/-- The curated hits directory of cell 20. -/
def demoHitsDir : String := "output/hits_r1/"

/-- A demo filesystem: design `d2` has all four artifacts, design `d1`
is missing its run-metadata (`.trb`) file. -/
def demoEnv : List String :=
  [ "output/run1/trf_relax//d1.pdb", "output/run1/trf_relax/af2/d1.pdb",
    "output/run1/trf_relax/../d1.fas",
    "output/run1/trf_relax//d2.pdb", "output/run1/trf_relax/af2/d2.pdb",
    "output/run1/trf_relax/../d2.trb", "output/run1/trf_relax/../d2.fas" ]

/-- The partition property of the run-1 job specs for a given intent:
spec `k` starts at `k * batch` with count `batch`, the start-index
ranges are pairwise disjoint, and their union is exactly `[0, total)`. -/
def run1PartitionOk (t b : ℕ) : Prop :=
  (run1Specs (t : ℤ) (b : ℤ)).length = t / b
  ∧ (∀ (k : ℕ) (hk : k < (run1Specs (t : ℤ) (b : ℤ)).length),
      (run1Specs (t : ℤ) (b : ℤ)).get ⟨k, hk⟩ = ((b : ℤ) * k, (b : ℤ)))
  ∧ (∀ i : ℤ, anyCovers (run1Specs (t : ℤ) (b : ℤ)) i = true ↔ 0 ≤ i ∧ i < (t : ℤ))
  ∧ (∀ (k l : ℕ) (hk : k < (run1Specs (t : ℤ) (b : ℤ)).length)
       (hl : l < (run1Specs (t : ℤ) (b : ℤ)).length), k ≠ l → ∀ i : ℤ,
       ¬(specCovers ((run1Specs (t : ℤ) (b : ℤ)).get ⟨k, hk⟩) i = true
         ∧ specCovers ((run1Specs (t : ℤ) (b : ℤ)).get ⟨l, hl⟩) i = true))

/-- C3.  The Hit Selector returns exactly the rows satisfying the
conjunction of all predicates, in the input table's order (the result is
a sublist of the table, never re-sorted), and on the demo table both
rows survive `lddt>60 AND rmsd<1.5 AND rog<16`. -/
theorem selector_exact_and_order_preserving (tbl : List Row) (preds : List Pred) :
    (hitSelect tbl preds).Sublist tbl
    ∧ (∀ r : Row, r ∈ hitSelect tbl preds ↔
        r ∈ tbl ∧ ∀ p ∈ preds, satPred r p = true)
    ∧ hitSelect [demoRow1, demoRow2] demoPreds = [demoRow1, demoRow2] := by
  refine ⟨List.filter_sublist _, ?_, by decide⟩
  intro r
  simp [hitSelect, List.mem_filter, List.all_eq_true]

/-- Witness for C3 at the demo table. -/
theorem selector_exact_and_order_preserving_witness :
    hitSelect [demoRow1, demoRow2] demoPreds = [demoRow1, demoRow2] :=
  (selector_exact_and_order_preserving [] []).2.2

/-- C4 counterexample.  Under `lddt>80` no demo row qualifies, yet the
selection line returns the ordinary empty table rather than failing:
there is no `EmptySelectionError` (or any error path) in the code. -/
theorem selector_silently_empty_counterexample :
    satPred demoRow1 ⟨"af2_lddt", .gt, 80⟩ = false
    ∧ satPred demoRow2 ⟨"af2_lddt", .gt, 80⟩ = false
    ∧ hitSelect [demoRow1, demoRow2] [⟨"af2_lddt", .gt, 80⟩] = [] := by
  decide

/-- C4 amended.  The Hit Selector is a total filter with no error path:
it returns the empty row set exactly when no row satisfies all
predicates, and the operator detects the shortfall by inspecting the
result's size. -/
theorem selector_empty_iff_no_row_qualifies (tbl : List Row) (preds : List Pred) :
    hitSelect tbl preds = [] ↔ ∀ r ∈ tbl, preds.all (satPred r) = false := by
  simp [hitSelect, List.filter_eq_nil_iff]

/-- Witness for the amended C4 at the demo table under `lddt>80`. -/
theorem selector_empty_iff_no_row_qualifies_witness :
    hitSelect [demoRow1, demoRow2] [⟨"af2_lddt", .gt, 80⟩] = [] ↔
      ∀ r ∈ [demoRow1, demoRow2],
        [(⟨"af2_lddt", .gt, 80⟩ : Pred)].all (satPred r) = false :=
  selector_empty_iff_no_row_qualifies [demoRow1, demoRow2] [⟨"af2_lddt", .gt, 80⟩]

/-- C9.  A row whose value is null in a column referenced by some
predicate fails the conjunction and is never selected as a hit. -/
theorem null_metric_never_selected (tbl : List Row) (preds : List Pred)
    (r : Row) (p : Pred) (hp : p ∈ preds) (hnull : colVal r p.col = none) :
    preds.all (satPred r) = false ∧ r ∉ hitSelect tbl preds := by
  have hfalse : satPred r p = false := by
    rw [satPred, hnull]
  have hall : preds.all (satPred r) = false := by
    cases hcase : preds.all (satPred r) with
    | false => rfl
    | true =>
      have := (List.all_eq_true.mp hcase) p hp
      rw [hfalse] at this
      exact absurd this (by simp)
  refine ⟨hall, fun hmem => ?_⟩
  have := (List.mem_filter.mp hmem).2
  rw [hall] at this
  exact absurd this (by simp)

/-- Witness for C9: a row with a null contig RMSD is excluded. -/
theorem null_metric_never_selected_witness :
    demoPreds.all (satPred demoRowNull) = false
    ∧ demoRowNull ∉ hitSelect [demoRowNull] demoPreds :=
  null_metric_never_selected [demoRowNull] demoPreds demoRowNull
    ⟨"contig_rmsd_af2", .lt, q150⟩ (by decide) (by decide)

/-- A loosened predicate passes every row value the original passed. -/
theorem satPred_mono (r : Row) (p q : Pred) (h : looser p q = true)
    (hs : satPred r p = true) : satPred r q = true := by
  obtain ⟨pc, pm, pt⟩ := p
  obtain ⟨qc, qm, qt⟩ := q
  cases pm with
  | gt =>
    simp only [looser, Bool.and_eq_true, beq_iff_eq] at h
    obtain ⟨⟨rfl, hq⟩, hthr⟩ := h
    subst hq
    rw [satPred] at hs ⊢
    cases hv : colVal r pc with
    | none => rw [hv] at hs; exact absurd hs (by simp)
    | some v =>
      rw [hv] at hs
      have hs' : pt < v := by simpa using hs
      simpa using lt_of_le_of_lt (show qt ≤ pt by simpa using hthr) hs'
  | lt =>
    simp only [looser, Bool.and_eq_true, beq_iff_eq] at h
    obtain ⟨⟨rfl, hq⟩, hthr⟩ := h
    subst hq
    rw [satPred] at hs ⊢
    cases hv : colVal r pc with
    | none => rw [hv] at hs; exact absurd hs (by simp)
    | some v =>
      rw [hv] at hs
      have hs' : v < pt := by simpa using hs
      simpa using lt_of_lt_of_le hs' (show pt ≤ qt by simpa using hthr)

/-- C7.  Loosening any single threshold of the predicate list (same
column, same direction, a strictly more permissive threshold) can only
add rows to the hit set, never remove them. -/
theorem selector_monotone_in_one_threshold (tbl : List Row) (preds : List Pred)
    (i : ℕ) (hi : i < preds.length) (p' : Pred)
    (hl : looser (preds.get ⟨i, hi⟩) p' = true) :
    ∀ r : Row, r ∈ hitSelect tbl preds → r ∈ hitSelect tbl (preds.set i p') := by
  intro r hr
  obtain ⟨hrt, hall⟩ := List.mem_filter.mp hr
  refine List.mem_filter.mpr ⟨hrt, ?_⟩
  rw [List.all_eq_true] at hall ⊢
  intro q hq
  rcases List.mem_or_eq_of_mem_set hq with hq' | rfl
  · exact hall q hq'
  · exact satPred_mono r _ q hl (hall _ (preds.get_mem i hi))

/-- Witness for C7: loosening `lddt>60` to `lddt>50` keeps the first
demo row in the hit set. -/
theorem selector_monotone_in_one_threshold_witness :
    demoRow1 ∈ hitSelect [demoRow1, demoRow2] (demoPreds.set 0 demoLoosePred) :=
  selector_monotone_in_one_threshold [demoRow1, demoRow2] demoPreds 0
    (by decide) demoLoosePred (by decide) demoRow1 (by decide)

/-- C10.  The template (`--use_template`) list keeps exactly the
comma-separated segments of the parent's sampled layout whose first
character is `A`, in order; a digit-initial free segment is never kept,
and a fixed segment on chain `B` is dropped. -/
theorem contigs_keep_exactly_chainA_segments (m : String) :
    (contigSegsOf m).Sublist (pysplit ',' m)
    ∧ (∀ x : String, x ∈ contigSegsOf m →
        x ∈ pysplit ',' m ∧ x.data.head? = some 'A')
    ∧ (∀ x : String, x ∈ pysplit ',' m → x.data.head? = some 'A' →
        x ∈ contigSegsOf m)
    ∧ contigSegsOf "30,A63-82,21,A119-140,3" = ["A63-82", "A119-140"]
    ∧ contigSegsOf "30,B10-20,A63-82,3" = ["A63-82"]
    ∧ childContigs ⟨"30,A63-82,21,A119-140,3", []⟩ = "A63-82,A119-140" := by
  refine ⟨List.filter_sublist _, ?_, ?_, by decide, by decide, by decide⟩
  · intro x hx
    obtain ⟨hmem, hhead⟩ := List.mem_filter.mp hx
    exact ⟨hmem, by simpa using hhead⟩
  · intro x hx h
    exact List.mem_filter.mpr ⟨hx, by simp [h]⟩

/-- Witness for C10 at the demo sampled layout. -/
theorem contigs_keep_exactly_chainA_segments_witness :
    "A63-82" ∈ contigSegsOf "30,A63-82,21,A119-140,3" :=
  (contigs_keep_exactly_chainA_segments "30,A63-82,21,A119-140,3").2.2.1
    "A63-82" (by decide) (by decide)

/-- C8.  The propagation derivation reads only the parent's sampled
layout (and the fixed auxiliary knobs): two metadata records agreeing on
`sampled_mask` yield byte-identical child specs and command lines, so
re-running the loop on unchanged metadata reproduces the output
exactly. -/
theorem propagation_deterministic (refPdb receptor forceAa outdir run : String)
    (batch istart : Int) (fn : String) (t1 t2 : RunMeta)
    (h : t1.sampled_mask = t2.sampled_mask) :
    propagateSpec fn t1 = propagateSpec fn t2
    ∧ run2Cmd refPdb receptor forceAa outdir run batch istart fn t1 =
      run2Cmd refPdb receptor forceAa outdir run batch istart fn t2 := by
  have hspec : propagateSpec fn t1 = propagateSpec fn t2 := by
    simp [propagateSpec, childMask, childContigs, h]
  exact ⟨hspec, by rw [run2Cmd, run2Cmd, hspec]⟩

/-- Witness for C8: same sampled layout, different bookkeeping, equal
child spec and command line. -/
theorem propagation_deterministic_witness :
    propagateSpec "output/hits_r1/pd1_r1_7.pdb" demoMeta1 =
      propagateSpec "output/hits_r1/pd1_r1_7.pdb" demoMeta2
    ∧ run2Cmd "input/pd1.pdb" "input/pdl1_trunc.pdb"
        "A64,A66,A68,A70,A73-81,A123-124,A127,A128,A132-136,A139"
        "output/run2/" "r2" 5 0 "output/hits_r1/pd1_r1_7.pdb" demoMeta1 =
      run2Cmd "input/pd1.pdb" "input/pdl1_trunc.pdb"
        "A64,A66,A68,A70,A73-81,A123-124,A127,A128,A132-136,A139"
        "output/run2/" "r2" 5 0 "output/hits_r1/pd1_r1_7.pdb" demoMeta2 :=
  propagation_deterministic "input/pd1.pdb" "input/pdl1_trunc.pdb"
    "A64,A66,A68,A70,A73-81,A123-124,A127,A128,A132-136,A139"
    "output/run2/" "r2" 5 0 "output/hits_r1/pd1_r1_7.pdb" demoMeta1 demoMeta2 rfl

/-- C2 counterexample.  A realized parent layout with a fixed segment on
chain `B` is in the claim's domain, yet the template list the loop
derives is empty instead of that fixed-segment list: the code keeps
only first-character-`A` segments, not all fixed segments. -/
theorem propagation_drops_nonA_fixed_segment :
    realizedMask "30,B63-82,3" = true
    ∧ fixedSegs "30,B63-82,3" = ["B63-82"]
    ∧ (propagateSpec "p_0.pdb" ⟨"30,B63-82,3", []⟩).contigs = ""
    ∧ pyjoin ',' (fixedSegs "30,B63-82,3") = "B63-82"
    ∧ (propagateSpec "p_0.pdb" ⟨"30,B63-82,3", []⟩).contigs ≠
        pyjoin ',' (fixedSegs "30,B63-82,3") := by
  decide

/-- C2 amended.  For a parent whose realized layout has all its fixed
segments on chain `A` (as in this campaign, whose motif lives on chain
`A` of the reference), the child spec's layout is the parent's realized
layout verbatim (so every free segment stays the exact length it
resolved to), its template list is exactly the fixed segments of that
layout in order, and its seed sequence is the parent's `.fas` artifact
at retention strength 0.999. -/
theorem propagation_freezes_realized_layout (fn : String) (t : RunMeta)
    (hreal : realizedMask t.sampled_mask = true)
    (hA : ∀ x ∈ pysplit ',' t.sampled_mask,
      isFixedSeg x = true → x.data.head? = some 'A') :
    (propagateSpec fn t).mask = t.sampled_mask
    ∧ realizedMask (propagateSpec fn t).mask = true
    ∧ (propagateSpec fn t).contigs = pyjoin ',' (fixedSegs t.sampled_mask)
    ∧ (propagateSpec fn t).spike_fas = pyreplace fn ".pdb" ".fas"
    ∧ (propagateSpec fn t).spike = "0.999"
    ∧ propagateSpec "output/hits_r1/pd1_r1_7.pdb" demoMeta1 =
        ⟨"30,A63-82,21,A119-140,3", "A63-82,A119-140",
         "output/hits_r1/pd1_r1_7.fas", "0.999"⟩ := by
  have hseg : contigSegsOf t.sampled_mask = fixedSegs t.sampled_mask := by
    rw [contigSegsOf, fixedSegs]
    apply List.filter_congr
    intro x hx
    cases hf : isFixedSeg x with
    | true => simp [hA x hx hf]
    | false =>
      rw [isFixedSeg] at hf
      cases hh : x.data.head? with
      | none => simp [hh]
      | some c =>
        rw [hh] at hf
        have hne : c ≠ 'A' := by
          intro hc
          rw [hc] at hf
          exact absurd hf (by decide)
        simp [hh, hne]
  exact ⟨rfl, hreal, by rw [show (propagateSpec fn t).contigs = childContigs t from rfl,
    childContigs, hseg], rfl, rfl, by decide⟩

/-- Witness for the amended C2 at the tutorial's realized layout. -/
theorem propagation_freezes_realized_layout_witness :
    realizedMask demoMeta1.sampled_mask = true
    ∧ (propagateSpec "output/hits_r1/pd1_r1_7.pdb" demoMeta1).mask =
        demoMeta1.sampled_mask
    ∧ (propagateSpec "output/hits_r1/pd1_r1_7.pdb" demoMeta1).contigs =
        pyjoin ',' (fixedSegs demoMeta1.sampled_mask) := by
  have h := propagation_freezes_realized_layout "output/hits_r1/pd1_r1_7.pdb"
    demoMeta1 (by decide) (by decide)
  exact ⟨by decide, h.1, h.2.2.1⟩

/-- When every source file of a copy list exists, the sequential copy
run succeeds and performs exactly those copies in order. -/
theorem copyAll_ok_of_all_present (env : List String)
    (cs : List (String × String)) (h : ∀ c ∈ cs, env.contains c.1 = true) :
    copyAll env cs = .ok cs := by
  induction cs with
  | nil => rfl
  | cons c cs ih =>
    have hc := h c (List.mem_cons_self c cs)
    rw [copyAll, copyFile, if_pos hc,
      ih (fun d hd => h d (List.mem_cons_of_mem c hd))]

/-- The sequential copy run succeeds exactly when every source file
exists; any missing source aborts it with an error. -/
theorem copyAll_isOk_iff (env : List String) (cs : List (String × String)) :
    isOkB (copyAll env cs) = true ↔ ∀ c ∈ cs, env.contains c.1 = true := by
  induction cs with
  | nil => simp [copyAll, isOkB]
  | cons c cs ih =>
    cases hc : env.contains c.1 with
    | false =>
      rw [copyAll, copyFile, if_neg (by rw [hc]; exact Bool.false_ne_true)]
      simp only [isOkB]
      constructor
      · intro h; exact absurd h (by simp)
      · intro h
        have := h c (List.mem_cons_self c cs)
        rw [hc] at this
        exact absurd this (by simp)
    | true =>
      rw [copyAll, copyFile, if_pos hc]
      cases hrest : copyAll env cs with
      | error e =>
        have : isOkB (copyAll env cs) = false := by rw [hrest]; rfl
        simp only [isOkB]
        constructor
        · intro h; exact absurd h (by simp)
        · intro h
          have hall : ∀ d ∈ cs, env.contains d.1 = true :=
            fun d hd => h d (List.mem_cons_of_mem c hd)
          rw [ih.mpr hall] at this
          exact absurd this (by simp [isOkB])
      | ok xs =>
        have hok : isOkB (copyAll env cs) = true := by rw [hrest]; rfl
        simp only [isOkB]
        constructor
        · intro _ d hd
          rcases List.mem_cons.mp hd with rfl | hd'
          · exact hc
          · exact (ih.mp hok) d hd'
        · intro _; trivial

/-- C6 counterexample.  Design `d1` is missing its `.trb` artifact while
sibling `d2` has all four artifacts: the promotion loop aborts with the
missing-file error and `d2` is never promoted, although promoting `d2`
alone would succeed. -/
theorem promotion_abort_counterexample :
    promoteAll demoEnv demoFolder demoHitsDir ["d1", "d2"] =
      .error "output/run1/trf_relax/../d1.trb"
    ∧ isOkB (promoteAll demoEnv demoFolder demoHitsDir ["d2"]) = true := by
  decide

/-- C6 amended.  The promotion loop succeeds exactly when every expected
artifact of every hit exists, in which case it performs all copies in
order; a missing artifact surfaces as an error naming the file and
aborts the loop at that design, so later siblings are not processed. -/
theorem promotion_ok_iff_all_artifacts (env : List String)
    (folder outdir : String) (names : List String) :
    (isOkB (promoteAll env folder outdir names) = true ↔
      ∀ n ∈ names, ∀ c ∈ designCopies folder outdir n, env.contains c.1 = true)
    ∧ ((∀ n ∈ names, ∀ c ∈ designCopies folder outdir n,
          env.contains c.1 = true) →
        promoteAll env folder outdir names =
          .ok (names.flatMap (designCopies folder outdir))) := by
  constructor
  · rw [promoteAll, copyAll_isOk_iff]
    constructor
    · intro h n hn c hc
      exact h c (List.mem_flatMap.mpr ⟨n, hn, hc⟩)
    · intro h c hc
      obtain ⟨n, hn, hc'⟩ := List.mem_flatMap.mp hc
      exact h n hn c hc'
  · intro h
    rw [promoteAll]
    apply copyAll_ok_of_all_present
    intro c hc
    obtain ⟨n, hn, hc'⟩ := List.mem_flatMap.mp hc
    exact h n hn c hc'

/-- Witness for the amended C6: with all of `d2`'s artifacts present,
the loop promotes `d2` fully. -/
theorem promotion_ok_iff_all_artifacts_witness :
    promoteAll demoEnv demoFolder demoHitsDir ["d2"] =
      .ok (["d2"].flatMap (designCopies demoFolder demoHitsDir)) :=
  (promotion_ok_iff_all_artifacts demoEnv demoFolder demoHitsDir ["d2"]).2
    (by decide)

/-- Closed form of the run-1 `np.arange` loop bound for natural
arguments: the start indices are `b * i` for `i < ceil(t / b)`. -/
theorem arange_zero_start (t b : ℕ) (hb : 0 < b) :
    arange 0 (t : ℤ) (b : ℤ) =
      (List.range ((t + b - 1) / b)).map (fun i : ℕ => (b : ℤ) * (i : ℤ)) := by
  rw [arange, if_pos (by exact_mod_cast hb)]
  have h1 : ((t : ℤ) - 0 + (b : ℤ) - 1).toNat = t + b - 1 := by omega
  have h2 : ((b : ℤ)).toNat = b := by omega
  rw [h1, h2]
  simp

/-- When the batch size divides the total, the run-1 spec list is the
`m` pairs `(b * k, b)` for `k < m`. -/
theorem run1Specs_eq_of_dvd (b m : ℕ) (hb : 0 < b) :
    run1Specs ((b * m : ℕ) : ℤ) (b : ℤ) =
      (List.range m).map (fun k : ℕ => ((b : ℤ) * (k : ℤ), (b : ℤ))) := by
  rw [run1Specs, arange_zero_start (b * m) b hb]
  have hceil : (b * m + b - 1) / b = m := by
    have h : b * m + b - 1 = (b - 1) + b * m := by omega
    rw [h, Nat.add_mul_div_left _ _ hb, Nat.div_eq_of_lt (by omega), Nat.zero_add]
  rw [hceil, List.map_map]
  rfl

/-- C1 amended.  For an intent with a positive batch size dividing a
positive total, the run-1 job specs partition `[0, total)` exactly: spec
`k` starts at `k * batch` with count `batch`, the ranges are pairwise
disjoint and jointly cover `[0, total)`; the `total=20, batch=5` intent
yields 4 specs with starts `0,5,10,15` and counts `5,5,5,5`.  (When the
batch size does not divide the total the loop still always passes
`--num={batch}`, so the last spec overshoots; see the counterexample.) -/
theorem builder_partitions_when_divisible (t b : ℕ) (hb : 0 < b) (ht : 0 < t)
    (hd : b ∣ t) :
    run1PartitionOk t b
    ∧ run1Specs 20 5 = [(0, 5), (5, 5), (10, 5), (15, 5)] := by
  obtain ⟨m, rfl⟩ := hd
  have hspecs := run1Specs_eq_of_dvd b m hb
  have hdiv : b * m / b = m := Nat.mul_div_cancel_left m hb
  have hlen : (run1Specs ((b * m : ℕ) : ℤ) (b : ℤ)).length = m := by
    rw [hspecs]
    simp
  have hget : ∀ (k : ℕ) (hk : k < (run1Specs ((b * m : ℕ) : ℤ) (b : ℤ)).length),
      (run1Specs ((b * m : ℕ) : ℤ) (b : ℤ)).get ⟨k, hk⟩ = ((b : ℤ) * k, (b : ℤ)) := by
    intro k hk
    rw [List.get_eq_getElem]
    simp only [hspecs]
    simp only [List.getElem_map, List.getElem_range]
  refine ⟨⟨by rw [hlen, hdiv], hget, ?_, ?_⟩, by decide⟩
  · intro i
    rw [anyCovers, List.any_eq_true]
    constructor
    · rintro ⟨s, hs, hcov⟩
      rw [hspecs] at hs
      obtain ⟨k, hk, rfl⟩ := List.mem_map.mp hs
      have hkm : k < m := List.mem_range.mp hk
      simp only [specCovers, Bool.and_eq_true, decide_eq_true_eq] at hcov
      have h0 : (0 : ℤ) ≤ (b : ℤ) * k := by positivity
      refine ⟨by linarith [hcov.1], ?_⟩
      have hmul : (b : ℤ) * ((k : ℤ) + 1) ≤ (b : ℤ) * (m : ℤ) :=
        mul_le_mul_of_nonneg_left (by exact_mod_cast hkm) (by positivity)
      have hexp : (b : ℤ) * ((k : ℤ) + 1) = (b : ℤ) * k + b := by ring
      have hcast : ((b * m : ℕ) : ℤ) = (b : ℤ) * (m : ℤ) := by push_cast; ring
      rw [hcast]
      linarith [hcov.2]
    · rintro ⟨h0, hlt⟩
      have hi : ((i.toNat : ℕ) : ℤ) = i := Int.toNat_of_nonneg h0
      have hiNlt : i.toNat < b * m := by
        have : ((i.toNat : ℕ) : ℤ) < ((b * m : ℕ) : ℤ) := by rw [hi]; exact hlt
        exact_mod_cast this
      have hklt : i.toNat / b < m :=
        (Nat.div_lt_iff_lt_mul hb).mpr (by rw [Nat.mul_comm]; exact hiNlt)
      have hdm : b * (i.toNat / b) + i.toNat % b = i.toNat := Nat.div_add_mod i.toNat b
      have hmlt : i.toNat % b < b := Nat.mod_lt i.toNat hb
      refine ⟨((b : ℤ) * (i.toNat / b : ℕ), (b : ℤ)), ?_, ?_⟩
      · rw [hspecs]
        exact List.mem_map.mpr ⟨i.toNat / b, List.mem_range.mpr hklt, rfl⟩
      · simp only [specCovers, Bool.and_eq_true, decide_eq_true_eq]
        have hble : b * (i.toNat / b) ≤ i.toNat := by
          rw [Nat.mul_comm]
          exact Nat.div_mul_le_self i.toNat b
        have hlt2 : i.toNat < b * (i.toNat / b) + b := by
          conv_lhs => rw [← hdm]
          exact Nat.add_lt_add_left hmlt _
        constructor
        · have : ((b * (i.toNat / b) : ℕ) : ℤ) ≤ ((i.toNat : ℕ) : ℤ) :=
            Int.ofNat_le.mpr hble
          rw [hi] at this
          push_cast at this
          exact this
        · have : ((i.toNat : ℕ) : ℤ) < ((b * (i.toNat / b) + b : ℕ) : ℤ) :=
            Int.ofNat_lt.mpr hlt2
          rw [hi] at this
          push_cast at this
          exact this
  · intro k l hk hl hne i hcover
    obtain ⟨hck, hcl⟩ := hcover
    rw [hget k hk] at hck
    rw [hget l hl] at hcl
    simp only [specCovers, Bool.and_eq_true, decide_eq_true_eq] at hck hcl
    rcases Nat.lt_or_ge k l with h | h
    · have hmul : (b : ℤ) * ((k : ℤ) + 1) ≤ (b : ℤ) * (l : ℤ) :=
        mul_le_mul_of_nonneg_left (by exact_mod_cast h) (by positivity)
      have hexp : (b : ℤ) * ((k : ℤ) + 1) = (b : ℤ) * k + b := by ring
      linarith [hck.2, hcl.1]
    · have hlk : l < k := Nat.lt_of_le_of_ne h (fun he => hne he.symm)
      have hmul : (b : ℤ) * ((l : ℤ) + 1) ≤ (b : ℤ) * (k : ℤ) :=
        mul_le_mul_of_nonneg_left (by exact_mod_cast hlk) (by positivity)
      have hexp : (b : ℤ) * ((l : ℤ) + 1) = (b : ℤ) * l + b := by ring
      linarith [hcl.2, hck.1]

/-- Witness for the amended C1 at the tutorial intent `total=20, batch=5`. -/
theorem builder_partitions_when_divisible_witness :
    run1PartitionOk 20 5
    ∧ run1Specs 20 5 = [(0, 5), (5, 5), (10, 5), (15, 5)] :=
  builder_partitions_when_divisible 20 5 (by decide) (by decide) (by decide)

/-- C1 counterexample.  For `total=7, batch=5` the loop emits specs
`(0,5)` and `(5,5)`: the union of the ranges covers index 8, outside
`[0,7)`, and the last spec's count is 5, not `7 mod 5 = 2` — the loop
always passes `--num={batch}`. -/
theorem builder_overshoots_counterexample :
    run1Specs 7 5 = [(0, 5), (5, 5)]
    ∧ anyCovers (run1Specs 7 5) 8 = true
    ∧ ¬((8 : ℤ) < 7)
    ∧ (run1Specs 7 5).getLast? = some (5, 5)
    ∧ (7 : ℤ) % 5 = 2
    ∧ ((5 : ℤ), (5 : ℤ)) ≠ ((5 : ℤ), (2 : ℤ)) := by
  decide

/-- C5 counterexample.  The run-1 loop validates nothing: with
`total_count = 0` it returns successfully with zero commands instead of
failing; with a constraint layout whose fixed segment `A999-1200` lies
far outside the reference structure (or whose free segment has a
negative endpoint) it still emits all 4 job specifications; and with
`total_count = -3, batch = -5` (a descending numpy range) it even emits
one spec despite `total_count ≤ 0`. -/
theorem builder_no_validation_counterexample :
    buildRun1 0 5 "input/pd1.pdb" "output/run1/" "pd1_r1"
        "25-35,A63-82,15-25,A119-140,0-15" = .ok []
    ∧ (buildRun1Cmds 20 5 "input/pd1.pdb" "output/run1/" "pd1_r1"
        "25-35,A999-1200,15-25").length = 4
    ∧ (buildRun1Cmds 20 5 "input/pd1.pdb" "output/run1/" "pd1_r1"
        "-5-10,A63-82,15-25").length = 4
    ∧ (4 : ℕ) ≠ 0
    ∧ (buildRun1Cmds (-3) (-5) "input/pd1.pdb" "output/run1/" "pd1_r1"
        "25-35,A63-82,15-25,A119-140,0-15").length = 1 := by
  decide

/-- C5 amended.  The Job Spec Builder performs no validation and never
raises `ConfigurationError`: for any nonzero batch size it returns
successfully, and the constraint layout is interpolated verbatim
without any range checking.  With a positive batch size,
`total_count ≤ 0` silently yields an empty spec list (a negative batch
size gives a descending numpy range that can still emit specs, see the
counterexample); the only possible failure is numpy's
`ZeroDivisionError` for `batch = 0`. -/
theorem builder_never_raises (total batch : ℤ)
    (refPdb outdir runName mask : String) (hb : batch ≠ 0) :
    isOkB (buildRun1 total batch refPdb outdir runName mask) = true
    ∧ (0 < batch → total ≤ 0 →
        buildRun1 total batch refPdb outdir runName mask = .ok []) := by
  constructor
  · rw [buildRun1, if_neg hb]; rfl
  · intro hpos htot
    rw [buildRun1, if_neg hb]
    suffices h : arange 0 total batch = [] by
      rw [buildRun1Cmds, h]; rfl
    rw [arange, if_pos hpos]
    have hz : (total - 0 + batch - 1).toNat / batch.toNat = 0 :=
      Nat.div_eq_of_lt (by omega)
    rw [hz]
    rfl

/-- Witness for the amended C5 at `total_count = -3, batch = 5`. -/
theorem builder_never_raises_witness :
    isOkB (buildRun1 (-3) 5 "input/pd1.pdb" "output/run1/" "pd1_r1"
        "25-35,A63-82,15-25,A119-140,0-15") = true
    ∧ buildRun1 (-3) 5 "input/pd1.pdb" "output/run1/" "pd1_r1"
        "25-35,A63-82,15-25,A119-140,0-15" = .ok [] := by
  have h := builder_never_raises (-3) 5 "input/pd1.pdb" "output/run1/"
    "pd1_r1" "25-35,A63-82,15-25,A119-140,0-15" (by decide)
  exact ⟨h.1, h.2 (by decide) (by decide)⟩

end RFDesign
